import Mathlib

/-!
# Verification of the blockchain search service against its specification

Shallow embedding of the dfuse search repository's core functions:

* the shard model (`NextBaseBlockAfter`, `alignStartBlock`) of the BigQuery
  indexer (`indexer-bigquery`);
* `resolveStartBlock` of the archive app;
* `Indexer.Bootstrap` alignment check of the indexer;
* `BigQueryShardIndex` construction and block containment;
* the archive backend's `StreamMatches` control flow (request validation,
  `last-block-read` trailer discipline);
* the fork resolver's `StreamUndoMatches`, `boundaries`, `toMap`,
  `sortDescending` and `getBlocksDescending`.

Machine integers (Go `uint64`/`int64`) are modelled as `Nat`/`Int`, with
wraparound made explicit (`% 2 ^ 64`) where the source can overflow.
External collaborators (the bleve/avro index internals, the gRPC transport,
the block file source, the query parser) are passed in as explicit inputs:
a pure oracle value stands for each external call result, and the block
store is the list of blocks the file source delivers, in ascending order,
beginning at the requested low block.
-/

deriving instance DecidableEq for Except

namespace SearchSpec

/-- `2 ^ 64`, the modulus of Go's `uint64` arithmetic. -/
def U64MOD : Nat := 2 ^ 64

/-- `uint64` decrement with wraparound (Go `n - 1` on an unsigned value):
used for `libnum := lowest - 1` in `getBlocksDescending`. -/
def u64pred (n : Nat) : Nat := (n + (U64MOD - 1)) % U64MOD

/-- A `bstream.Block` as the fork resolver sees it: only the number and the
ID are inspected by the code under verification. -/
structure Block where
  Number : Nat
  Id : String
deriving Repr, DecidableEq

/-- A `pbsearch.BlockRef` from a `ForkResolveRequest`. -/
structure BlockRef where
  BlockNum : Nat
  BlockID : String
deriving Repr, DecidableEq

/-! ## Shard model: `NextBaseBlockAfter` (src/unnamed/part_000, `indexer_bigquery`) -/

/-- Decimal value of a digit list (`startBlockFromFileName` applied to the
regexp capture group: `strconv`-style parse of the ten digits). -/
def digitsVal (cs : List Char) : Nat :=
  cs.foldl (fun a c => a * 10 + (c.toNat - 48)) 0

/-- Leftmost match of the (unanchored) regexp `(\d{10})\.avro` over a file
name, returning the captured base block number: at the current position,
either ten digits followed by `".avro"` match, or the search restarts one
character later. -/
def fileBaseAux : List Char → Option Nat
  | [] => none
  | c :: rest =>
    let cs := c :: rest
    if (cs.take 10).length = 10 ∧ (cs.take 10).all Char.isDigit ∧
        ((cs.drop 10).take 5 = ".avro".toList) then
      some (digitsVal (cs.take 10))
    else
      fileBaseAux rest

/-- `remotePathRE.FindStringSubmatch` + `startBlockFromFileName` on one
remote listing entry. -/
def fileBase (file : String) : Option Nat := fileBaseAux file.toList

/-- `IndexerBigQuery.alignStartBlock`:
`startBlock - (startBlock % i.shardSize)`. -/
def alignStartBlock (shardSize startBlock : Nat) : Nat :=
  startBlock - startBlock % shardSize

/-- The scan loop of `IndexerBigQuery.NextBaseBlockAfter` over the remote
listing: skip non-matching names, skip bases `≤ startBlockNum`, stop (Go
`break`) at the first base beyond `nextStartBlockNum + shardSize`, otherwise
advance `nextStartBlockNum` to the file's base. -/
def nextBaseGo (shardSize startBlockNum : Nat) : List String → Nat → Nat
  | [], next => next
  | file :: rest, next =>
    match fileBase file with
    | none => nextBaseGo shardSize startBlockNum rest next
    | some fileStartBlock =>
      if fileStartBlock ≤ startBlockNum then
        nextBaseGo shardSize startBlockNum rest next
      else if fileStartBlock > next + shardSize then
        next
      else
        nextBaseGo shardSize startBlockNum rest fileStartBlock

/-- `IndexerBigQuery.NextBaseBlockAfter`: the scan loop seeded with
`startBlockNum`, then `alignStartBlock` of the result.  `remote` is the
lexicographically sorted listing returned by the indexes store. -/
def nextBaseBlockAfter (shardSize : Nat) (remote : List String)
    (startBlockNum : Nat) : Nat :=
  alignStartBlock shardSize (nextBaseGo shardSize startBlockNum remote startBlockNum)

/-! ## `resolveStartBlock` (src/unnamed/part_002, `archive` app) -/

/-- `resolveStartBlock(startBlock int64, shardSize, irrBlockNum uint64)`.
Go's `%` on `int64` is truncated division remainder, i.e. `Int.tmod`. -/
def resolveStartBlock (startBlock : Int) (shardSize irr : Nat) :
    Except String Int :=
  if 0 ≤ startBlock then
    if Int.tmod startBlock shardSize ≠ 0 then
      .error ("start block " ++ toString startBlock ++
        " misaligned with shard size " ++ toString shardSize)
    else
      .ok startBlock
  else
    let absoluteStartBlock : Int := (irr : Int) + startBlock
    let aligned : Int := absoluteStartBlock - Int.tmod absoluteStartBlock shardSize
    if aligned < 0 then
      .error ("relative start block " ++ toString startBlock ++
        "  is to large, cannot resolve to a negative start block " ++
        toString aligned)
    else
      .ok aligned

/-! ## `Indexer.Bootstrap` (src/unnamed/part_004, `indexer`) -/

/-- The fixed head of the Bootstrap rejection message. -/
def bootMsgPfx : String :=
  "indexer only starts RIGHT BEFORE the index boundaries"

/-- `Indexer.Bootstrap(startBlockNum)`: rejects a start block that is
neither a multiple of the shard size nor the genesis block `1`; otherwise
delegates to `pipeline.Bootstrap`, whose outcome is the `pipelineRes`
input. -/
def indexerBootstrap (startBlockNum shardSize : Nat)
    (pipelineRes : Except String Unit) : Except String Unit :=
  if startBlockNum % shardSize ≠ 0 ∧ startBlockNum ≠ 1 then
    .error (bootMsgPfx ++
      ", did you specify an irreversible block_id with a round number? It says " ++
      toString startBlockNum)
  else
    pipelineRes

/-- "message beginning with `bootMsgPfx`", as the claim puts it. -/
def startsWithBoundaryMsg (e : String) : Prop := ∃ t, e = bootMsgPfx ++ t

/-! ## `BigQueryShardIndex` (src/unnamed/part_000) -/

/-- A document written to the shard's scratch OCF file by
`BigQueryShardIndex.Index` (its payload is opaque here). -/
structure ShardDoc where
  payload : Nat
deriving Repr, DecidableEq

/-- `BigQueryShardIndex`: the potential `[StartBlock, EndBlock]` range plus
the documents appended so far (the contents of the scratch file). -/
structure BigQueryShardIndex where
  StartBlock : Nat
  EndBlock : Nat
  docs : List ShardDoc
deriving Repr, DecidableEq

/-- `newShardIndex(codec, baseBlockNum, shardSize, pathFunc)`:
`StartBlock = base`, `EndBlock = base + shardSize - 1` in `uint64`
arithmetic (the `base = 0, shardSize = 0` special case resets `EndBlock`
to `0`).  `base` and `shardSize` are `uint64` values (`< 2 ^ 64`). -/
def newShardIndex (baseBlockNum shardSize : Nat) : BigQueryShardIndex :=
  let shard : BigQueryShardIndex :=
    { StartBlock := baseBlockNum
      EndBlock := (baseBlockNum + shardSize + (U64MOD - 1)) % U64MOD
      docs := [] }
  if baseBlockNum = 0 ∧ shardSize = 0 then { shard with EndBlock := 0 }
  else shard

/-- `BigQueryShardIndex.containsBlockNum`. -/
def containsBlockNum (s : BigQueryShardIndex) (blockNum : Nat) : Bool :=
  decide (blockNum ≥ s.StartBlock) && decide (blockNum ≤ s.EndBlock)

/-- `BigQueryShardIndex.Index(doc)`: appends the document to the scratch
OCF file; the `[StartBlock, EndBlock]` interval is not touched. -/
def indexDoc (s : BigQueryShardIndex) (doc : ShardDoc) : BigQueryShardIndex :=
  { s with docs := s.docs ++ [doc] }

/-! ## Archive backend `StreamMatches` (src/unnamed/part_005, `archive`) -/

/-- `pbsearch.BackendRequest` (the fields `ArchiveBackend.StreamMatches`
inspects). -/
structure BackendRequest where
  Query : String
  LowBlockNum : Nat
  HighBlockNum : Nat
  Descending : Bool
  WithReversible : Bool
  StopAtVirtualHead : Bool
  LiveMarkerInterval : Nat
  NavigateFromBlockID : String
  NavigateFromBlockNum : Nat
deriving Repr, DecidableEq

/-- The distinct error exits of `ArchiveBackend.StreamMatches`, keeping the
ground of each rejection distinguishable. -/
inductive StreamErr where
  | withReversibleNotSupported
  | stopAtVirtualHeadNotSupported
  | liveMarkerIntervalNotSupported
  | navigateFromBlockIDNotSupported
  | navigateFromBlockNumNotSupported
  | parseFailed (e : String)
  | boundaryCheckFailed (e : String)
  | queryFailed (e : String)
  | sendFailed
deriving Repr, DecidableEq

/-- The five request-validation rejections ("these grounds" in the claim). -/
def StreamErr.isValidation : StreamErr → Bool
  | .withReversibleNotSupported => true
  | .stopAtVirtualHeadNotSupported => true
  | .liveMarkerIntervalNotSupported => true
  | .navigateFromBlockIDNotSupported => true
  | .navigateFromBlockNumNotSupported => true
  | _ => false

/-- How the select loop of `StreamMatches` terminates after the streamed
matches: a value received on `archiveQuery.Errors` (possibly `nil`), or the
`archiveQuery.Results` channel closing. -/
inductive QueryTerminal where
  | errChan (e : Option String)
  | resultsClosed
deriving Repr, DecidableEq

/-- Observable outcome of one `StreamMatches` call: the `last-block-read`
trailer value (none when the handler returned before installing the
trailer), the matches sent downstream, and the handler's return value. -/
structure StreamOutcome where
  trailer : Option String
  sent : List Nat
  result : Except StreamErr Unit
deriving Repr, DecidableEq

/-- The send loop: `stream.Send` succeeds for every match, or fails at the
`k`-th one (Go: the handler returns the send error); returns the matches
actually sent and whether all sends succeeded. -/
def sendUpTo (results : List Nat) (sendErrAt : Option Nat) : List Nat × Bool :=
  match sendErrAt with
  | none => (results, true)
  | some k => if k < results.length then (results.take k, false) else (results, true)

/-- `ArchiveBackend.StreamMatches`.  `parseRes` is the outcome of
`search.NewParsedQuery`, `boundsRes` of `archiveQuery.checkBoundaries`;
`results` are the values `archiveQuery.run` delivers on `Results` (opaque
here), `terminal` how the channels end, and `lastBlockRead` the value of
`archiveQuery.LastBlockRead` at the end.  The trailer is created, deferred
and defaulted to `"-1"` only after the five validation checks and the query
parse have passed. -/
def streamMatches (req : BackendRequest) (parseRes : Except String Unit)
    (boundsRes : Except String Unit) (results : List Nat)
    (terminal : QueryTerminal) (sendErrAt : Option Nat)
    (lastBlockRead : Nat) : StreamOutcome :=
  if req.WithReversible then
    ⟨none, [], .error .withReversibleNotSupported⟩
  else if req.StopAtVirtualHead then
    ⟨none, [], .error .stopAtVirtualHeadNotSupported⟩
  else if req.LiveMarkerInterval ≠ 0 then
    ⟨none, [], .error .liveMarkerIntervalNotSupported⟩
  else if req.NavigateFromBlockID ≠ "" then
    ⟨none, [], .error .navigateFromBlockIDNotSupported⟩
  else if req.NavigateFromBlockNum ≠ 0 then
    ⟨none, [], .error .navigateFromBlockNumNotSupported⟩
  else
    match parseRes with
    | .error e => ⟨none, [], .error (.parseFailed e)⟩
    | .ok _ =>
      match boundsRes with
      | .error e => ⟨some "-1", [], .error (.boundaryCheckFailed e)⟩
      | .ok _ =>
        match sendUpTo results sendErrAt with
        | (sent, false) => ⟨some "-1", sent, .error .sendFailed⟩
        | (sent, true) =>
          match terminal with
          | .errChan (some e) => ⟨some "-1", sent, .error (.queryFailed e)⟩
          | .errChan none => ⟨some "-1", sent, .ok ()⟩
          | .resultsClosed => ⟨some (toString lastBlockRead), sent, .ok ()⟩

/-- Any of the five unsupported request fields set to a non-zero value. -/
def hasValidationViolation (req : BackendRequest) : Prop :=
  req.WithReversible = true ∨ req.StopAtVirtualHead = true ∨
  req.LiveMarkerInterval ≠ 0 ∨ req.NavigateFromBlockID ≠ "" ∨
  req.NavigateFromBlockNum ≠ 0

instance (req : BackendRequest) : Decidable (hasValidationViolation req) := by
  unfold hasValidationViolation; infer_instance

/-! ## Fork resolver (src/app/indexer-bigquery/app.go, package `forkresolver`) -/

/-- `var MaxLookupBlocks = uint64(10000)`. -/
def MaxLookupBlocks : Nat := 10000

/-- The `for _, ref := range refs` loop of `boundaries`, updating the
running lowest/highest block numbers. -/
def boundariesLoop : List BlockRef → Nat → Nat → Nat × Nat
  | [], lowest, highest => (lowest, highest)
  | r :: rest, lowest, highest =>
    let lowest := if r.BlockNum < lowest then r.BlockNum else lowest
    let highest := if r.BlockNum > highest then r.BlockNum else highest
    boundariesLoop rest lowest highest

/-- `boundaries(refs)`: seeds both `lowest` and `highest` with
`refs[0].BlockNum` — an out-of-range panic on an empty slice, modelled as
`none` — then folds over all refs. -/
def boundaries (refs : List BlockRef) : Option (Nat × Nat) :=
  match refs with
  | [] => none
  | r0 :: _ => some (boundariesLoop refs r0.BlockNum r0.BlockNum)

/-- `toMap(refs)`: the Go `map[string]bool` keyed by the refs' block IDs,
modelled as the duplicate-free list of those IDs (membership is what the
handler consults; `delete` is `List.erase`). -/
def toMap (refs : List BlockRef) : List String :=
  (refs.map (·.BlockID)).dedup

/-- Insert a block into a descending-sorted list, after every block with a
number `≥` its own (so that earlier-collected blocks with an equal number
stay first — stability). -/
def insertDesc (b : Block) : List Block → List Block
  | [] => [b]
  | a :: rest =>
    if a.Number ≤ b.Number then b :: a :: rest else a :: insertDesc b rest

/-- `sortDescending(blocks)`: `sort.SliceStable` with
`blocks[i].Number > blocks[j].Number`, i.e. the stable descending sort by
block number (whose result a stable insertion sort reproduces exactly). -/
def sortDescending : List Block → List Block
  | [] => []
  | b :: rest => insertDesc b (sortDescending rest)

/-- Error exits of `getBlocksDescending`. -/
inductive FRErr where
  | notFound (msg : String)
  | missingBlockFiles
deriving Repr, DecidableEq

/-- The `bstream.HandlerFunc` loop of `getBlocksDescending` over the block
stream delivered by the file source: a block past
`highest + MaxLookupBlocks` aborts with `NOT_FOUND`; a block whose ID is a
outstanding ref is collected and its ID deleted; the loop completes
(`ErrEndOfRange`) once no ref is outstanding.  A stream that ends first is
the `SetNotFoundCallback` shutdown (`cannot run forkresolver on missing
block files`). -/
def getBlocksLoop (highest : Nat) : List Block → List String → List Block →
    Except FRErr (List Block)
  | [], _, _ => .error .missingBlockFiles
  | blk :: rest, refsMap, out =>
    if blk.Number > highest + MaxLookupBlocks then
      .error (.notFound ("not found within " ++ toString MaxLookupBlocks ++ " blocks"))
    else
      let hit := blk.Id ∈ refsMap
      let out' := if hit then out ++ [blk] else out
      let refsMap' := if hit then refsMap.erase blk.Id else refsMap
      if refsMap'.isEmpty then .ok out'
      else getBlocksLoop highest rest refsMap' out'

/-- `ForkResolver.getBlocksDescending(ctx, refs)`: computes the
boundaries (panicking on empty refs, hence `none`), runs the handler over
the stream the file source delivers from `lowest` upward, and on completion
returns the collected blocks sorted descending together with
`libnum = lowest - 1` (`uint64` wraparound). -/
def getBlocksDescending (refs : List BlockRef) (store : List Block) :
    Option (Except FRErr (List Block × Nat)) :=
  match boundaries refs with
  | none => none
  | some lh =>
    some (match getBlocksLoop lh.2 store (toMap refs) [] with
      | .error e => .error e
      | .ok out => .ok (sortDescending out, u64pred lh.1))

/-- A match returned by `search.RunSingleIndexQuery` for one block:
`TransactionIDPrefix()` and `GetIndex()` are all the emission loop reads. -/
structure IdxMatch where
  TrxIdPfx : String
  Index : Nat
deriving Repr, DecidableEq

/-- `search.NewCursor(blk.Num(), blk.ID(), match.TransactionIDPrefix())`. -/
structure Cursor where
  blockNum : Nat
  blockID : String
  trxIdPfx : String
deriving Repr, DecidableEq

/-- The `pbsearch.SearchMatch` the fork resolver sends (`TrxIdPrefix` is
shortened to `TrxIdPfx` here). -/
structure SearchMatchPb where
  TrxIdPfx : String
  Index : Nat
  Cursor : Cursor
  IrrBlockNum : Nat
  BlockNum : Nat
  Undo : Bool
deriving Repr, DecidableEq

/-- The inner emission loop of `StreamUndoMatches` for one block: the
matches of `RunSingleIndexQuery` are walked from the last index down to
`0` (`for i := len(matches) - 1; i >= 0; i--`), each wrapped as an
undo `SearchMatch`. -/
def emitBlock (libnum : Nat) (query : Block → List IdxMatch) (b : Block) :
    List SearchMatchPb :=
  ((query b).reverse).map fun m =>
    { TrxIdPfx := m.TrxIdPfx
      Index := m.Index
      Cursor := ⟨b.Number, b.Id, m.TrxIdPfx⟩
      IrrBlockNum := libnum
      BlockNum := b.Number
      Undo := true }

/-- The outer `for _, blk := range blocks` loop. -/
def emitAll (libnum : Nat) (query : Block → List IdxMatch) :
    List Block → List SearchMatchPb
  | [] => []
  | b :: rest => emitBlock libnum query b ++ emitAll libnum query rest

/-- Error exits of `StreamUndoMatches`. -/
inductive FRStreamErr where
  | invalidArgument (msg : String)
  | parseFailed (e : String)
deriving Repr, DecidableEq

/-- `pbsearch.ForkResolveRequest`. -/
structure ForkResolveRequest where
  Query : String
  ForkedBlockRefs : List BlockRef
deriving Repr, DecidableEq

/-- `ForkResolver.StreamUndoMatches`.  `parseRes` is the outcome of
`search.NewParsedQuery`; `query` maps a block to the matches
`RunSingleIndexQuery` finds in its single-block index (ascending trx
order); `store` is the block stream the file source delivers.  The source
assigns `blocks, libnum, err := f.getBlocksDescending(...)` and then NEVER
checks `err`: on failure `blocks` and `libnum` keep their zero values
(`nil`, `0`), the emission loop runs over no blocks, and the handler
returns `nil`. -/
def streamUndoMatches (req : ForkResolveRequest)
    (parseRes : Except String Unit) (store : List Block)
    (query : Block → List IdxMatch) :
    List SearchMatchPb × Except FRStreamErr Unit :=
  match req.ForkedBlockRefs with
  | [] => ([], .error (.invalidArgument "invalid argument: no refs requested"))
  | r0 :: rest =>
    match parseRes with
    | .error e => ([], .error (.parseFailed e))
    | .ok _ =>
      let gres : Except FRErr (List Block × Nat) :=
        match getBlocksDescending (r0 :: rest) store with
        | some r => r
        | none => .ok ([], 0)
      let blocks : List Block := match gres with
        | .ok p => p.1
        | .error _ => []
      let libnum : Nat := match gres with
        | .ok p => p.2
        | .error _ => 0
      (emitAll libnum query blocks, .ok ())

/-- The emission order of the fork resolver: block numbers never increase,
and two matches wrapping the same forked block (same cursor block ID) keep
descending transaction order. -/
def undoOrder (m1 m2 : SearchMatchPb) : Prop :=
  m2.BlockNum ≤ m1.BlockNum ∧
  (m1.Cursor.blockID = m2.Cursor.blockID → m2.Index ≤ m1.Index)

instance : DecidableRel undoOrder := fun m1 m2 => by
  unfold undoOrder; infer_instance

/-! ## Concrete inputs used by the example scenarios -/

/-- The remote listing of the spec's next-base-gap scenario. -/
def exampleRemote : List String :=
  ["0000000000.avro", "0000005000.avro", "0000015000.avro"]

/-- The single forked ref of the fork-resolution-not-found scenario. -/
def nfRefs : List BlockRef := [⟨500, "dead"⟩]

/-- A block stream that never delivers ID `"dead"` and steps past
`500 + MaxLookupBlocks`. -/
def nfStore : List Block := [⟨500, "aa"⟩, ⟨10501, "bb"⟩]

/-- Two forked refs present in the store. -/
def exRefs : List BlockRef := [⟨500, "aa"⟩, ⟨501, "bb"⟩]

/-- A store containing both requested blocks. -/
def exStore : List Block := [⟨500, "aa"⟩, ⟨501, "bb"⟩]

/-- A per-block query oracle returning two matches in ascending trx order. -/
def exQuery : Block → List IdxMatch := fun _ => [⟨"t1", 0⟩, ⟨"t2", 1⟩]

/-- A `BackendRequest` with all five unsupported fields zero-valued. -/
def cleanReq : BackendRequest := ⟨"account:eosio", 0, 1000, false, false, false, 0, "", 0⟩

/-- A `BackendRequest` asking for reversible blocks. -/
def reversibleReq : BackendRequest := ⟨"account:eosio", 0, 1000, false, true, false, 0, "", 0⟩

/-! ## Helper lemmas -/

theorem nextBaseGo_no_candidate (shardSize start : Nat) :
    ∀ (remote : List String),
    (∀ f ∈ remote, ∀ b, fileBase f = some b → b ≤ start) →
    nextBaseGo shardSize start remote start = start
  | [], _ => rfl
  | file :: rest, h => by
    have hrest := nextBaseGo_no_candidate shardSize start rest
      (fun f hf b hb => h f (List.mem_cons_of_mem _ hf) b hb)
    unfold nextBaseGo
    cases hfb : fileBase file with
    | none => exact hrest
    | some b =>
      have hb : b ≤ start := h file (List.mem_cons_self file rest) b hfb
      simp [hb, hrest]

theorem boundariesLoop_spec : ∀ (refs : List BlockRef) (lo hi : Nat),
    ((boundariesLoop refs lo hi).1 = lo ∨
      (boundariesLoop refs lo hi).1 ∈ refs.map (·.BlockNum)) ∧
    ((boundariesLoop refs lo hi).2 = hi ∨
      (boundariesLoop refs lo hi).2 ∈ refs.map (·.BlockNum)) ∧
    (boundariesLoop refs lo hi).1 ≤ lo ∧ hi ≤ (boundariesLoop refs lo hi).2 ∧
    ∀ n ∈ refs.map (·.BlockNum),
      (boundariesLoop refs lo hi).1 ≤ n ∧ n ≤ (boundariesLoop refs lo hi).2
  | [], lo, hi => by simp [boundariesLoop]
  | r :: rest, lo, hi => by
    have hlo1 : (if r.BlockNum < lo then r.BlockNum else lo) ≤ lo := by
      split <;> omega
    have hlo2 : (if r.BlockNum < lo then r.BlockNum else lo) ≤ r.BlockNum := by
      split <;> omega
    have hlo3 : (if r.BlockNum < lo then r.BlockNum else lo) = lo ∨
        (if r.BlockNum < lo then r.BlockNum else lo) = r.BlockNum := by
      split
      · exact Or.inr rfl
      · exact Or.inl rfl
    have hhi1 : hi ≤ (if r.BlockNum > hi then r.BlockNum else hi) := by
      split <;> omega
    have hhi2 : r.BlockNum ≤ (if r.BlockNum > hi then r.BlockNum else hi) := by
      split <;> omega
    have hhi3 : (if r.BlockNum > hi then r.BlockNum else hi) = hi ∨
        (if r.BlockNum > hi then r.BlockNum else hi) = r.BlockNum := by
      split
      · exact Or.inr rfl
      · exact Or.inl rfl
    have ih := boundariesLoop_spec rest (if r.BlockNum < lo then r.BlockNum else lo)
      (if r.BlockNum > hi then r.BlockNum else hi)
    obtain ⟨ih1, ih2, ih3, ih4, ih5⟩ := ih
    have heq : boundariesLoop (r :: rest) lo hi =
        boundariesLoop rest (if r.BlockNum < lo then r.BlockNum else lo)
          (if r.BlockNum > hi then r.BlockNum else hi) := rfl
    rw [heq]
    refine ⟨?_, ?_, by omega, by omega, ?_⟩
    · rcases ih1 with h | h
      · rcases hlo3 with h' | h'
        · exact Or.inl (h.trans h')
        · refine Or.inr ?_
          rw [List.map_cons]
          exact List.mem_cons.mpr (Or.inl (h.trans h'))
      · refine Or.inr ?_
        rw [List.map_cons]
        exact List.mem_cons.mpr (Or.inr h)
    · rcases ih2 with h | h
      · rcases hhi3 with h' | h'
        · exact Or.inl (h.trans h')
        · refine Or.inr ?_
          rw [List.map_cons]
          exact List.mem_cons.mpr (Or.inl (h.trans h'))
      · refine Or.inr ?_
        rw [List.map_cons]
        exact List.mem_cons.mpr (Or.inr h)
    · intro n hn
      simp only [List.map_cons, List.mem_cons] at hn
      rcases hn with rfl | hn
      · constructor
        · omega
        · omega
      · exact ih5 n hn

theorem insertDesc_perm (b : Block) :
    ∀ l : List Block, (insertDesc b l).Perm (b :: l)
  | [] => List.Perm.refl _
  | a :: rest => by
    unfold insertDesc
    split
    · exact List.Perm.refl _
    · exact ((insertDesc_perm b rest).cons a).trans (List.Perm.swap b a rest)

theorem mem_insertDesc {x b : Block} {l : List Block} :
    x ∈ insertDesc b l ↔ x = b ∨ x ∈ l := by
  rw [(insertDesc_perm b l).mem_iff, List.mem_cons]

theorem pairwise_insertDesc (b : Block) :
    ∀ l : List Block, l.Pairwise (fun x y => y.Number ≤ x.Number) →
    (insertDesc b l).Pairwise (fun x y => y.Number ≤ x.Number)
  | [], _ => by simp [insertDesc]
  | a :: rest, h => by
    rw [List.pairwise_cons] at h
    obtain ⟨ha, hrest⟩ := h
    unfold insertDesc
    split
    · next hab =>
      rw [List.pairwise_cons]
      refine ⟨?_, List.pairwise_cons.mpr ⟨ha, hrest⟩⟩
      intro y hy
      rcases List.mem_cons.mp hy with rfl | hy
      · exact hab
      · exact (ha y hy).trans hab
    · next hab =>
      rw [List.pairwise_cons]
      refine ⟨?_, pairwise_insertDesc b rest hrest⟩
      intro y hy
      rcases mem_insertDesc.mp hy with rfl | hy
      · omega
      · exact ha y hy

theorem sortDescending_perm : ∀ l : List Block, (sortDescending l).Perm l
  | [] => List.Perm.refl _
  | b :: rest => (insertDesc_perm b (sortDescending rest)).trans
      ((sortDescending_perm rest).cons b)

theorem sortDescending_sorted : ∀ l : List Block,
    (sortDescending l).Pairwise (fun x y => y.Number ≤ x.Number)
  | [] => List.Pairwise.nil
  | b :: rest => pairwise_insertDesc b _ (sortDescending_sorted rest)

theorem mem_emitBlock {lib : Nat} {query : Block → List IdxMatch} {b : Block}
    {m : SearchMatchPb} (hm : m ∈ emitBlock lib query b) :
    m.BlockNum = b.Number ∧ m.Cursor.blockID = b.Id ∧
    m.Cursor.blockNum = b.Number ∧ m.Undo = true := by
  unfold emitBlock at hm
  obtain ⟨x, _, rfl⟩ := List.mem_map.mp hm
  exact ⟨rfl, rfl, rfl, rfl⟩

theorem mem_emitAll {lib : Nat} {query : Block → List IdxMatch} :
    ∀ {blocks : List Block} {m : SearchMatchPb},
    m ∈ emitAll lib query blocks → ∃ b ∈ blocks, m ∈ emitBlock lib query b
  | [], m, hm => by simp [emitAll] at hm
  | b :: rest, m, hm => by
    simp only [emitAll] at hm
    rcases List.mem_append.mp hm with h | h
    · exact ⟨b, List.mem_cons_self _ _, h⟩
    · obtain ⟨b2, hb2, hmb⟩ := mem_emitAll h
      exact ⟨b2, List.mem_cons_of_mem _ hb2, hmb⟩

theorem pairwise_emitBlock {lib : Nat} {query : Block → List IdxMatch}
    {b : Block}
    (hq : (query b).Pairwise (fun m1 m2 => m1.Index ≤ m2.Index)) :
    (emitBlock lib query b).Pairwise undoOrder := by
  unfold emitBlock
  rw [List.pairwise_map, List.pairwise_reverse]
  refine hq.imp ?_
  intro m1 m2 h
  exact ⟨le_refl _, fun _ => h⟩

theorem pairwise_emitAll {lib : Nat} {query : Block → List IdxMatch}
    (hq : ∀ b, (query b).Pairwise (fun m1 m2 => m1.Index ≤ m2.Index)) :
    ∀ {blocks : List Block},
    blocks.Pairwise (fun b1 b2 => b2.Number ≤ b1.Number ∧ b1.Id ≠ b2.Id) →
    (emitAll lib query blocks).Pairwise undoOrder
  | [], _ => List.Pairwise.nil
  | b :: rest, h => by
    rw [List.pairwise_cons] at h
    obtain ⟨hb, hrest⟩ := h
    simp only [emitAll]
    rw [List.pairwise_append]
    refine ⟨pairwise_emitBlock (hq b), pairwise_emitAll hq hrest, ?_⟩
    intro x hx y hy
    obtain ⟨b2, hb2, hy2⟩ := mem_emitAll hy
    obtain ⟨hxn, hxi, -, -⟩ := mem_emitBlock hx
    obtain ⟨hyn, hyi, -, -⟩ := mem_emitBlock hy2
    obtain ⟨hnum, hid⟩ := hb b2 hb2
    constructor
    · rw [hxn, hyn]
      exact hnum
    · intro hcid
      exfalso
      apply hid
      rw [← hxi, ← hyi, hcid]

theorem getBlocksLoop_inv (highest : Nat) (P : String → Prop) :
    ∀ (store : List Block) (refsMap : List String) (out res : List Block),
    getBlocksLoop highest store refsMap out = .ok res →
    refsMap.Nodup → (out.map (·.Id)).Nodup →
    (∀ b ∈ out, b.Id ∉ refsMap) →
    (∀ b ∈ out, P b.Id) → (∀ s ∈ refsMap, P s) →
    (res.map (·.Id)).Nodup ∧ ∀ b ∈ res, P b.Id
  | [], refsMap, out, res, heq, _, _, _, _, _ => by
    simp [getBlocksLoop] at heq
  | blk :: rest, refsMap, out, res, heq, hnd, hout, hdisj, hP, hPrefs => by
    simp only [getBlocksLoop] at heq
    split at heq
    · cases heq
    · by_cases hhit : blk.Id ∈ refsMap
      · rw [if_pos hhit, if_pos hhit] at heq
        have hout' : ((out ++ [blk]).map (·.Id)).Nodup := by
          rw [List.map_append]
          rw [List.nodup_append]
          refine ⟨hout, by simp, ?_⟩
          intro a ha
          simp only [List.map_cons, List.map_nil, List.mem_singleton]
          intro hae
          obtain ⟨b0, hb0, hb0e⟩ := List.mem_map.mp ha
          subst hae
          exact hdisj b0 hb0 (hb0e ▸ hhit)
        have hP' : ∀ b ∈ out ++ [blk], P b.Id := by
          intro b0 hb0
          rcases List.mem_append.mp hb0 with h | h
          · exact hP b0 h
          · rw [List.mem_singleton] at h
            rw [h]
            exact hPrefs blk.Id hhit
        split at heq
        · cases heq
          exact ⟨hout', hP'⟩
        · refine getBlocksLoop_inv highest P rest (refsMap.erase blk.Id)
            (out ++ [blk]) res heq (hnd.erase _) hout' ?_ hP' ?_
          · intro b0 hb0
            rcases List.mem_append.mp hb0 with h | h
            · intro hmem
              exact hdisj b0 h (List.erase_subset _ _ hmem)
            · rw [List.mem_singleton] at h
              subst h
              exact hnd.not_mem_erase
          · intro s hs
            exact hPrefs s (List.erase_subset _ _ hs)
      · rw [if_neg hhit, if_neg hhit] at heq
        split at heq
        · cases heq
          exact ⟨hout, hP⟩
        · exact getBlocksLoop_inv highest P rest refsMap out res heq
            hnd hout hdisj hP hPrefs

/-! ## Claim theorems -/

/-- C1: the spec says a `StreamUndoMatches` request whose forked block IDs
are not all encountered within `MaxLookupBlocks = 10000` blocks past the
highest requested block number terminates the stream with a `NOT_FOUND`
error carrying `"not found within 10000 blocks"`.  The source builds that
error inside `getBlocksDescending`, but `StreamUndoMatches` assigns
`blocks, libnum, err := f.getBlocksDescending(...)` and never consults
`err`: at this failing input `getBlocksDescending` reports `NOT_FOUND`
while the handler returns success with zero matches. -/
theorem C1_notfound_error_swallowed :
    getBlocksDescending nfRefs nfStore =
      some (.error (.notFound "not found within 10000 blocks")) ∧
    streamUndoMatches ⟨"account:eosio", nfRefs⟩ (.ok ()) nfStore (fun _ => []) =
      ([], .ok ()) := by
  constructor
  · decide
  · decide

/-- C2: `Indexer.Bootstrap(startBlockNum)` fails with an error whose
message begins `"indexer only starts RIGHT BEFORE the index boundaries"`
if and only if `startBlockNum mod shardSize ≠ 0` and `startBlockNum ≠ 1`
(provided the downstream pipeline never produces that message itself). -/
theorem C2_bootstrap_alignment (startBlockNum shardSize : Nat)
    (pipelineRes : Except String Unit) (hs : 0 < shardSize)
    (hp : ∀ e, pipelineRes = .error e → ¬ startsWithBoundaryMsg e) :
    (∃ e, indexerBootstrap startBlockNum shardSize pipelineRes = .error e ∧
      startsWithBoundaryMsg e) ↔
    (startBlockNum % shardSize ≠ 0 ∧ startBlockNum ≠ 1) := by
  unfold indexerBootstrap
  split
  · next h =>
    refine iff_of_true ⟨_, rfl, ?_⟩ h
    exact ⟨_, String.append_assoc _ _ _⟩
  · next h =>
    refine iff_of_false ?_ h
    rintro ⟨e, he, hmsg⟩
    exact hp e he hmsg

/-- Witness for C2 at the spec's unaligned-bootstrap scenario:
`shardSize = 5000`, `StartBlock = 5001` is rejected with the boundary
message. -/
theorem C2_bootstrap_alignment_witness :
    ∃ e, indexerBootstrap 5001 5000 (.ok ()) = .error e ∧
      startsWithBoundaryMsg e :=
  (C2_bootstrap_alignment 5001 5000 (.ok ()) (by norm_num)
    (fun e he => by cases he)).mpr (by decide)

/-- C3 counterexample: with remote files `0000000000.avro`,
`0000005000.avro`, `0000015000.avro` and `shardSize = 5000`, the claim says
successive calls return `5000` and then `10000`; in the source the call at
`5000` returns `5000` again (the scan chains to the last contiguous base
`≤ previous + shardSize` and aligns it), never `10000`. -/
theorem C3_counterexample :
    nextBaseBlockAfter 5000 exampleRemote 5000 = 5000 ∧
    nextBaseBlockAfter 5000 exampleRemote 5000 ≠ 10000 := by
  constructor
  · decide
  · decide

/-- C3 (amended): `NextBaseBlockAfter` scans the sorted remote listing,
follows the chain of bases with `base' > base` and
`base' ≤ previous + shardSize`, stops at the first gap and returns the
aligned last chained base; when no candidate exists it returns
`align(base)`.  On the example listing with `shardSize = 5000` it returns
`5000` starting from `0`, and `5000` again starting from `5000` (the gap
before `0000015000.avro` is never crossed, so neither `10000` nor `15000`
is returned for these inputs). -/
theorem C3_nextBaseBlockAfter_gap :
    (∀ (shardSize start : Nat) (remote : List String),
      (∀ f ∈ remote, ∀ b, fileBase f = some b → b ≤ start) →
      nextBaseBlockAfter shardSize remote start = alignStartBlock shardSize start) ∧
    nextBaseBlockAfter 5000 exampleRemote 0 = 5000 ∧
    nextBaseBlockAfter 5000 exampleRemote 5000 = 5000 := by
  refine ⟨?_, by decide, by decide⟩
  intro shardSize start remote h
  unfold nextBaseBlockAfter
  rw [nextBaseGo_no_candidate shardSize start remote h]

/-- Witness for C3: a listing with no candidate past the start block
returns the aligned start block. -/
theorem C3_nextBaseBlockAfter_gap_witness :
    nextBaseBlockAfter 7 ["block.data"] 13 = alignStartBlock 7 13 :=
  C3_nextBaseBlockAfter_gap.1 7 13 ["block.data"] (by decide)

/-- C4 counterexample: the claim says a negative start block resolves to
`irr + startBlock` aligned down to a multiple of `shardSize`, failing if
that value is negative.  At `startBlock = -600`, `shardSize = 1000`,
`irr = 100` the aligned-down value is `-1000` (negative, so the claim
demands failure), yet the source aligns with Go's truncated remainder —
rounding toward zero — and succeeds with `0`. -/
theorem C4_counterexample :
    resolveStartBlock (-600) 1000 100 = .ok 0 ∧
    ((100 : Int) + (-600)) - ((100 : Int) + (-600)) % 1000 = -1000 := by
  constructor
  · decide
  · decide

/-- C4 (amended): `resolveStartBlock` returns a nonnegative aligned start
block unchanged, fails for any nonnegative misaligned start block, and for
a negative start block subtracts the truncated (Go) remainder of
`irr + startBlock` by `shardSize` — rounding toward zero — failing exactly
when that rounded value is negative; `StartBlock = -100`,
`irr = 1_000_000`, `shardSize = 1000` resolves to `999_000`. -/
theorem C4_resolveStartBlock_spec (startBlock : Int) (shardSize irr : Nat)
    (hs : 0 < shardSize) :
    (0 ≤ startBlock → Int.tmod startBlock shardSize = 0 →
      resolveStartBlock startBlock shardSize irr = .ok startBlock) ∧
    (0 ≤ startBlock → Int.tmod startBlock shardSize ≠ 0 →
      ∃ e, resolveStartBlock startBlock shardSize irr = .error e) ∧
    (startBlock < 0 →
      (0 ≤ ((irr : Int) + startBlock) - Int.tmod ((irr : Int) + startBlock) shardSize →
        resolveStartBlock startBlock shardSize irr =
          .ok (((irr : Int) + startBlock) - Int.tmod ((irr : Int) + startBlock) shardSize) ∧
        (((irr : Int) + startBlock) - Int.tmod ((irr : Int) + startBlock) shardSize)
          % (shardSize : Int) = 0) ∧
      (((irr : Int) + startBlock) - Int.tmod ((irr : Int) + startBlock) shardSize < 0 →
        ∃ e, resolveStartBlock startBlock shardSize irr = .error e)) ∧
    resolveStartBlock (-100) 1000 1000000 = .ok 999000 := by
  refine ⟨?_, ?_, ?_, by decide⟩
  · intro h0 hmod
    simp [resolveStartBlock, h0, hmod]
  · intro h0 hmod
    refine ⟨"start block " ++ toString startBlock ++
      " misaligned with shard size " ++ toString shardSize, ?_⟩
    simp [resolveStartBlock, h0, hmod]
  · intro hneg
    constructor
    · intro hr
      constructor
      · rw [resolveStartBlock, if_neg (by omega), if_neg (by omega)]
      · have hd := Int.tdiv_add_tmod ((irr : Int) + startBlock) (shardSize : Int)
        have : ((irr : Int) + startBlock) - Int.tmod ((irr : Int) + startBlock) shardSize =
            (shardSize : Int) * Int.tdiv ((irr : Int) + startBlock) shardSize := by omega
        rw [this]
        exact Int.mul_emod_right _ _
    · intro hr
      refine ⟨"relative start block " ++ toString startBlock ++
        "  is to large, cannot resolve to a negative start block " ++
        toString (((irr : Int) + startBlock) -
          Int.tmod ((irr : Int) + startBlock) shardSize), ?_⟩
      rw [resolveStartBlock, if_neg (by omega), if_pos (by omega)]

/-- Witness for C4 (amended) at the spec's relative-resolution scenario. -/
theorem C4_resolveStartBlock_spec_witness :
    resolveStartBlock (-100) 1000 1000000 = .ok 999000 :=
  (C4_resolveStartBlock_spec (-100) 1000 1000000 (by norm_num)).2.2.2

/-- C7: a `ForkResolveRequest` with an empty `ForkedBlockRefs` list makes
`StreamUndoMatches` return `INVALID_ARGUMENT` (`"invalid argument: no refs
requested"`) and emit no matches, whatever the query, the store or the
per-block query results. -/
theorem C7_empty_refs_rejected (req : ForkResolveRequest)
    (parseRes : Except String Unit) (store : List Block)
    (query : Block → List IdxMatch) (h : req.ForkedBlockRefs = []) :
    streamUndoMatches req parseRes store query =
      ([], .error (.invalidArgument "invalid argument: no refs requested")) := by
  unfold streamUndoMatches
  rw [h]

/-- Witness for C7 at a concrete empty-refs request. -/
theorem C7_empty_refs_rejected_witness :
    streamUndoMatches ⟨"account:eosio", []⟩ (.ok ()) exStore exQuery =
      ([], .error (.invalidArgument "invalid argument: no refs requested")) :=
  C7_empty_refs_rejected ⟨"account:eosio", []⟩ (.ok ()) exStore exQuery rfl

/-- C9: for every `uint64` base and `shardSize > 0` (no wraparound), a new
shard index covers exactly the closed potential range
`[base, base + shardSize - 1]`: `StartBlock = base`,
`EndBlock = base + shardSize - 1`, `containsBlockNum n` holds iff
`base ≤ n ≤ base + shardSize - 1`; the shard starts with no documents and
`Index` (appending a document) never touches the interval, so emptiness
never shrinks it. -/
theorem C9_shard_potential_range (base shardSize : Nat) (hs : 0 < shardSize)
    (hfit : base + shardSize ≤ U64MOD) :
    (newShardIndex base shardSize).StartBlock = base ∧
    (newShardIndex base shardSize).EndBlock = base + shardSize - 1 ∧
    (∀ n : Nat, containsBlockNum (newShardIndex base shardSize) n = true ↔
      base ≤ n ∧ n ≤ base + shardSize - 1) ∧
    (newShardIndex base shardSize).docs = [] ∧
    (∀ (s : BigQueryShardIndex) (doc : ShardDoc),
      (indexDoc s doc).StartBlock = s.StartBlock ∧
      (indexDoc s doc).EndBlock = s.EndBlock) := by
  have hM : U64MOD = 18446744073709551616 := by norm_num [U64MOD]
  have hcase : ¬ (base = 0 ∧ shardSize = 0) := by omega
  have hend : (newShardIndex base shardSize).EndBlock = base + shardSize - 1 := by
    simp only [newShardIndex, if_neg hcase]
    have h1 : base + shardSize + (U64MOD - 1) = (base + shardSize - 1) + U64MOD := by
      omega
    rw [h1, Nat.add_mod_right]
    exact Nat.mod_eq_of_lt (by omega)
  have hstart : (newShardIndex base shardSize).StartBlock = base := by
    simp [newShardIndex, if_neg hcase]
  refine ⟨hstart, hend, ?_, ?_, ?_⟩
  · intro n
    simp [containsBlockNum, hstart, hend, and_comm]
  · simp [newShardIndex, if_neg hcase]
  · intro s doc
    exact ⟨rfl, rfl⟩

/-- Witness for C9 at `base = 5000`, `shardSize = 5000`. -/
theorem C9_shard_potential_range_witness :
    (newShardIndex 5000 5000).StartBlock = 5000 ∧
    (newShardIndex 5000 5000).EndBlock = 9999 :=
  ⟨(C9_shard_potential_range 5000 5000 (by norm_num) (by norm_num [U64MOD])).1,
   (C9_shard_potential_range 5000 5000 (by norm_num) (by norm_num [U64MOD])).2.1⟩

/-- C5: the archive backend's `StreamMatches` rejects every request with
any of `WithReversible`, `StopAtVirtualHead`, `LiveMarkerInterval`,
`NavigateFromBlockID`, `NavigateFromBlockNum` non-zero before parsing the
query or streaming any match (the outcome is a validation error, no sent
matches and no trailer, independent of every downstream input); when all
five are zero-valued the request is never rejected on these grounds. -/
theorem C5_streamMatches_validation (req : BackendRequest)
    (parseRes boundsRes : Except String Unit) (results : List Nat)
    (terminal : QueryTerminal) (sendErrAt : Option Nat) (lbr : Nat) :
    (hasValidationViolation req →
      ∃ e, streamMatches req parseRes boundsRes results terminal sendErrAt lbr =
        ⟨none, [], .error e⟩ ∧ e.isValidation = true) ∧
    (¬ hasValidationViolation req →
      ∀ e, (streamMatches req parseRes boundsRes results terminal sendErrAt lbr).result =
        .error e → e.isValidation = false) := by
  constructor
  · intro hv
    unfold streamMatches
    split_ifs with h1 h2 h3 h4 h5
    · exact ⟨_, rfl, rfl⟩
    · exact ⟨_, rfl, rfl⟩
    · exact ⟨_, rfl, rfl⟩
    · exact ⟨_, rfl, rfl⟩
    · exact ⟨_, rfl, rfl⟩
    · exfalso
      rcases hv with h | h | h | h | h
      · exact h1 h
      · exact h2 h
      · exact h3 h
      · exact h4 h
      · exact h5 h
  · intro hv e
    unfold streamMatches
    split_ifs with h1 h2 h3 h4 h5
    · exact absurd (Or.inl h1) hv
    · exact absurd (Or.inr (Or.inl h2)) hv
    · exact absurd (Or.inr (Or.inr (Or.inl h3))) hv
    · exact absurd (Or.inr (Or.inr (Or.inr (Or.inl h4)))) hv
    · exact absurd (Or.inr (Or.inr (Or.inr (Or.inr h5)))) hv
    · cases parseRes with
      | error pe => intro he; cases he; rfl
      | ok u =>
        cases boundsRes with
        | error be => intro he; cases he; rfl
        | ok v =>
          rcases hsu : sendUpTo results sendErrAt with ⟨sent, ok⟩
          cases ok with
          | false => intro he; cases he; rfl
          | true =>
            cases terminal with
            | errChan oe =>
              cases oe with
              | none => intro he; cases he
              | some qe => intro he; cases he; rfl
            | resultsClosed => intro he; cases he

/-- Witness for C5: a `WithReversible` request is rejected on validation
grounds; the all-zero request is not. -/
theorem C5_streamMatches_validation_witness :
    (∃ e, streamMatches reversibleReq (.ok ()) (.ok ()) [] (.errChan none) none 0 =
      ⟨none, [], .error e⟩ ∧ e.isValidation = true) ∧
    (∀ e, (streamMatches cleanReq (.ok ()) (.ok ()) [] (.errChan none) none 0).result =
      .error e → e.isValidation = false) :=
  ⟨(C5_streamMatches_validation reversibleReq (.ok ()) (.ok ()) [] (.errChan none)
      none 0).1 (by decide),
   (C5_streamMatches_validation cleanReq (.ok ()) (.ok ()) [] (.errChan none)
      none 0).2 (by decide)⟩

/-- C6 counterexample: the claim says `StreamMatches` always sets the
`last-block-read` trailer, `"-1"` on every error exit.  A request rejected
for `WithReversible = true` errors out before the trailer is created
(`trailer.Set` and the deferred `SetTrailer` only run after query parsing),
so this error exit carries no trailer at all. -/
theorem C6_counterexample :
    (streamMatches reversibleReq (.ok ()) (.ok ()) [] (.errChan none) none 0).trailer
      = none ∧
    (streamMatches reversibleReq (.ok ()) (.ok ()) [] (.errChan none) none 0).result
      = .error .withReversibleNotSupported := by
  constructor
  · decide
  · decide

/-- C6 (amended): the `last-block-read` trailer is installed (defaulted to
`"-1"`) only once the five validation checks and the query parse have
passed; from that point every error exit reports `"-1"`, completion of the
result stream reports the engine's `LastBlockRead` value, and a `nil` value
on the error channel also ends the stream with `"-1"`.  Validation and
parse failures return before the trailer exists, reporting none. -/
theorem C6_trailer_discipline (req : BackendRequest)
    (parseRes boundsRes : Except String Unit) (results : List Nat)
    (terminal : QueryTerminal) (sendErrAt : Option Nat) (lbr : Nat) :
    (hasValidationViolation req ∨ (∃ e, parseRes = .error e) →
      (streamMatches req parseRes boundsRes results terminal sendErrAt lbr).trailer
        = none ∧
      ∃ e, (streamMatches req parseRes boundsRes results terminal sendErrAt lbr).result
        = .error e) ∧
    (¬ hasValidationViolation req → parseRes = .ok () →
      (∀ e, (streamMatches req parseRes boundsRes results terminal sendErrAt lbr).result
          = .error e →
        (streamMatches req parseRes boundsRes results terminal sendErrAt lbr).trailer
          = some "-1") ∧
      ((streamMatches req parseRes boundsRes results terminal sendErrAt lbr).result
          = .ok () → terminal = .resultsClosed →
        (streamMatches req parseRes boundsRes results terminal sendErrAt lbr).trailer
          = some (toString lbr)) ∧
      ((streamMatches req parseRes boundsRes results terminal sendErrAt lbr).result
          = .ok () → terminal = .errChan none →
        (streamMatches req parseRes boundsRes results terminal sendErrAt lbr).trailer
          = some "-1")) := by
  constructor
  · intro hearly
    unfold streamMatches
    split_ifs with h1 h2 h3 h4 h5
    · exact ⟨rfl, _, rfl⟩
    · exact ⟨rfl, _, rfl⟩
    · exact ⟨rfl, _, rfl⟩
    · exact ⟨rfl, _, rfl⟩
    · exact ⟨rfl, _, rfl⟩
    · cases parseRes with
      | error pe => exact ⟨rfl, _, rfl⟩
      | ok u =>
        exfalso
        rcases hearly with hv | ⟨e, he⟩
        · rcases hv with h | h | h | h | h
          · exact h1 h
          · exact h2 h
          · exact h3 h
          · exact h4 h
          · exact h5 h
        · cases he
  · intro hv hp
    subst hp
    unfold streamMatches
    split_ifs with h1 h2 h3 h4 h5
    · exact absurd (Or.inl h1) hv
    · exact absurd (Or.inr (Or.inl h2)) hv
    · exact absurd (Or.inr (Or.inr (Or.inl h3))) hv
    · exact absurd (Or.inr (Or.inr (Or.inr (Or.inl h4)))) hv
    · exact absurd (Or.inr (Or.inr (Or.inr (Or.inr h5)))) hv
    · cases boundsRes with
      | error be => simp
      | ok v =>
        rcases hsu : sendUpTo results sendErrAt with ⟨sent, ok⟩
        cases ok with
        | false => simp
        | true =>
          cases terminal with
          | errChan oe =>
            cases oe with
            | none => simp
            | some qe => simp
          | resultsClosed => simp

/-- C8: whenever the per-block single-index query returns matches in
ascending transaction order (how `RunSingleIndexQuery` is invoked
non-descending), the fork resolver's match stream is emitted descending:
block numbers never increase, matches wrapping the same forked block keep
descending transaction order, and every emitted match has `Undo = true`
and a cursor carrying the forked block's number and ID (an ID from the
request's `ForkedBlockRefs`). -/
theorem C8_undo_stream_order (req : ForkResolveRequest)
    (parseRes : Except String Unit) (store : List Block)
    (query : Block → List IdxMatch)
    (hq : ∀ b, (query b).Pairwise (fun m1 m2 => m1.Index ≤ m2.Index)) :
    ((streamUndoMatches req parseRes store query).1).Pairwise undoOrder ∧
    ∀ m ∈ (streamUndoMatches req parseRes store query).1,
      m.Undo = true ∧ m.Cursor.blockNum = m.BlockNum ∧
      ∃ r ∈ req.ForkedBlockRefs, m.Cursor.blockID = r.BlockID := by
  obtain ⟨q, refs⟩ := req
  cases refs with
  | nil => simp [streamUndoMatches]
  | cons r0 rest =>
    cases parseRes with
    | error e => simp [streamUndoMatches]
    | ok u =>
      cases hloop : getBlocksLoop (boundariesLoop (r0 :: rest) r0.BlockNum r0.BlockNum).2
          store (toMap (r0 :: rest)) [] with
      | error e =>
        simp [streamUndoMatches, getBlocksDescending, boundaries, hloop, emitAll]
      | ok out =>
        obtain ⟨hnodup, hmem⟩ := getBlocksLoop_inv
          (boundariesLoop (r0 :: rest) r0.BlockNum r0.BlockNum).2
          (· ∈ toMap (r0 :: rest)) store (toMap (r0 :: rest)) [] out hloop
          (List.nodup_dedup _) (by simp) (by simp) (by simp) (fun s hs => hs)
        have hperm := sortDescending_perm out
        have hnodup' : ((sortDescending out).map (·.Id)).Nodup :=
          ((hperm.map (·.Id)).symm).nodup hnodup
        have hpairne : ((sortDescending out).map (·.Id)).Pairwise (· ≠ ·) := hnodup'
        rw [List.pairwise_map] at hpairne
        have hblocks := (sortDescending_sorted out).and hpairne
        have hsent : (streamUndoMatches ⟨q, r0 :: rest⟩ (.ok ()) store query).1 =
            emitAll (u64pred (boundariesLoop (r0 :: rest) r0.BlockNum r0.BlockNum).1)
              query (sortDescending out) := by
          simp [streamUndoMatches, getBlocksDescending, boundaries, hloop]
        rw [hsent]
        constructor
        · exact pairwise_emitAll hq hblocks
        · intro m hm
          obtain ⟨b, hb, hmb⟩ := mem_emitAll hm
          obtain ⟨h1, h2, h3, h4⟩ := mem_emitBlock hmb
          refine ⟨h4, by rw [h3, h1], ?_⟩
          have hid : b.Id ∈ toMap (r0 :: rest) := hmem b (hperm.subset hb)
          rw [toMap, List.mem_dedup] at hid
          obtain ⟨r, hr, hre⟩ := List.mem_map.mp hid
          refine ⟨r, hr, ?_⟩
          rw [h2, ← hre]

/-- Witness for C8: the two-block request, with the ascending two-match
query oracle, produces a stream ordered by `undoOrder`. -/
theorem C8_undo_stream_order_witness :
    ((streamUndoMatches ⟨"account:eosio", exRefs⟩ (.ok ()) exStore exQuery).1).Pairwise
      undoOrder :=
  (C8_undo_stream_order ⟨"account:eosio", exRefs⟩ (.ok ()) exStore exQuery
    (fun b => by simp [exQuery])).1

/-- C10: `boundaries` reads `refs[0]` with no emptiness check of its own
(the empty-refs case is the out-of-range panic, `none`), but it is only
reachable through `StreamUndoMatches` after the empty-`ForkedBlockRefs`
rejection: `getBlocksDescending` hits the panic case exactly on empty refs,
a request with empty refs is answered with `INVALID_ARGUMENT` before any
block lookup, and for every non-empty refs list `boundaries` totally
returns the minimum and maximum `BlockNum` among the refs. -/
theorem C10_boundaries_total_on_nonempty :
    (∀ refs : List BlockRef, refs ≠ [] →
      ∃ l h, boundaries refs = some (l, h) ∧
        l ∈ refs.map (·.BlockNum) ∧ h ∈ refs.map (·.BlockNum) ∧
        ∀ n ∈ refs.map (·.BlockNum), l ≤ n ∧ n ≤ h) ∧
    (∀ (refs : List BlockRef) (store : List Block),
      getBlocksDescending refs store = none ↔ refs = []) ∧
    (∀ (q : String) (parseRes : Except String Unit) (store : List Block)
      (query : Block → List IdxMatch),
      (streamUndoMatches ⟨q, []⟩ parseRes store query).2 =
        .error (.invalidArgument "invalid argument: no refs requested")) := by
  refine ⟨?_, ?_, ?_⟩
  · intro refs hne
    match refs with
    | r0 :: rest =>
      obtain ⟨h1, h2, h3, h4, h5⟩ :=
        boundariesLoop_spec (r0 :: rest) r0.BlockNum r0.BlockNum
      refine ⟨(boundariesLoop (r0 :: rest) r0.BlockNum r0.BlockNum).1,
        (boundariesLoop (r0 :: rest) r0.BlockNum r0.BlockNum).2, rfl, ?_, ?_, h5⟩
      · rcases h1 with h | h
        · rw [h, List.map_cons]
          exact List.mem_cons_self _ _
        · exact h
      · rcases h2 with h | h
        · rw [h, List.map_cons]
          exact List.mem_cons_self _ _
        · exact h
  · intro refs store
    cases refs with
    | nil => simp [getBlocksDescending, boundaries]
    | cons r0 rest => simp [getBlocksDescending, boundaries]
  · intro q parseRes store query
    rfl

/-- Witness for C10 at a concrete two-ref list. -/
theorem C10_boundaries_total_on_nonempty_witness :
    ∃ l h, boundaries exRefs = some (l, h) ∧
      l ∈ exRefs.map (·.BlockNum) ∧ h ∈ exRefs.map (·.BlockNum) ∧
      ∀ n ∈ exRefs.map (·.BlockNum), l ≤ n ∧ n ≤ h :=
  C10_boundaries_total_on_nonempty.1 exRefs (by decide)

/-- Witness for C6 (amended): with the all-zero request and a parsed
query, a boundary-check failure exits with trailer `"-1"`, and a clean
close of the result stream reports the last block read (`7`). -/
theorem C6_trailer_discipline_witness :
    (streamMatches cleanReq (.ok ()) (.error "out of range") [] (.errChan none) none 7).trailer
      = some "-1" ∧
    (streamMatches cleanReq (.ok ()) (.ok ()) [3, 4] .resultsClosed none 7).trailer
      = some (toString 7) :=
  ⟨(C6_trailer_discipline cleanReq (.ok ()) (.error "out of range") [] (.errChan none)
      none 7).2 (by decide) rfl |>.1 (.boundaryCheckFailed "out of range") (by decide),
   (C6_trailer_discipline cleanReq (.ok ()) (.ok ()) [3, 4] .resultsClosed
      none 7).2 (by decide) rfl |>.2.1 (by decide) rfl⟩

end SearchSpec
